import Mathlib

/-!
Verification of the exposure / impact-physics / orbital core of the
asteroid-impact estimator.

Shallow embedding conventions:
* Python floats that enter exact arithmetic and comparisons (raster affine
  coefficients, query coordinates, radii, cell values) are embedded as `ℚ`;
  quantities flowing through transcendental functions (haversine, crater
  scaling) live in `ℝ`.
* A raster cell value of `none` models a NaN ("no data") cell; NumPy's
  `NaN > 0` comparison is `False`, which the embedding mirrors.
* `rasterio.DatasetReader.index` is the floor of the inverse affine
  transform; it fails (the `try/except` path of `population_within_radius`)
  exactly when the affine transform is singular.
* `pyproj` is an external library: its `Transformer` (reprojection of a
  non-geographic raster) is a `reproject` field of the raster model, and its
  `Geod.fwd` geodesic forward projection is an explicit `fwd` parameter of
  the orbital functions.  Both are uninterpreted; theorems that need a
  property of them (a zero-length geodesic ends at its start point) take it
  as a hypothesis.
-/

/-- Degrees to radians, `math.radians` / `np.radians`. -/
noncomputable def radiansR (x : ℝ) : ℝ := x * Real.pi / 180

/-- Haversine great-circle distance in km with Earth radius 6371.0, as in
`exposure.haversine_km` and the vectorized copy inside
`population_within_radius`. -/
noncomputable def haversine_km (lat1 lon1 lat2 lon2 : ℝ) : ℝ :=
  let phi1 := radiansR lat1
  let phi2 := radiansR lat2
  let dphi := radiansR (lat2 - lat1)
  let dlambda := radiansR (lon2 - lon1)
  let a := Real.sin (dphi / 2) ^ 2 +
    Real.cos phi1 * Real.cos phi2 * Real.sin (dlambda / 2) ^ 2
  2 * 6371.0 * Real.arcsin (Real.sqrt a)

/-- A population raster handle: pixel extents, the six affine coefficients
`a b c d e f` of `raster.transform` (mapping pixel `(col, row)` to
georeferenced `(x, y)` via `x = c + col·a + row·b`, `y = f + col·d + row·e`),
the CRS kind, the reprojection to WGS84 for non-geographic CRS (pyproj
`Transformer`, uninterpreted), and the band-1 cell data (`none` = NaN). -/
structure Raster where
  height : ℕ
  width : ℕ
  ta : ℚ
  tb : ℚ
  tc : ℚ
  td : ℚ
  te : ℚ
  tf : ℚ
  is_geographic : Bool
  reproject : ℚ → ℚ → ℝ × ℝ
  data : ℤ → ℤ → Option ℚ

/-- Determinant of the affine transform. -/
def Raster.det (r : Raster) : ℚ := r.ta * r.te - r.tb * r.td

/-- `raster.index(x, y)`: floor of the inverse affine transform, returning
`(row, col)`.  `rasterio` raises when the transform is not invertible, which
is the only failure mode of the `try` block in `population_within_radius`. -/
def Raster.index (r : Raster) (x y : ℚ) : Option (ℤ × ℤ) :=
  if r.det = 0 then none
  else some (⌊(r.ta * (y - r.tf) - r.td * (x - r.tc)) / r.det⌋,
             ⌊(r.te * (x - r.tc) - r.tb * (y - r.tf)) / r.det⌋)

/-- Georeferenced x of pixel `(row, col)`: the window-transform grid
`xs = wt.c + cols2d·wt.a + rows2d·wt.b` expressed in absolute pixel
indices (`wt` is the transform shifted to the window's offset, so the two
agree). -/
def Raster.pixelX (r : Raster) (row col : ℤ) : ℚ := r.tc + col * r.ta + row * r.tb

/-- Georeferenced y of pixel `(row, col)`, as `ys = wt.f + cols2d·wt.d + rows2d·wt.e`. -/
def Raster.pixelY (r : Raster) (row col : ℤ) : ℚ := r.tf + col * r.td + row * r.te

/-- The `(lon, lat)` used for the distance computation: the affine grid when
the CRS is geographic, else the pyproj reprojection of it. -/
noncomputable def Raster.pixelLonLat (r : Raster) (row col : ℤ) : ℝ × ℝ :=
  if r.is_geographic then ((r.pixelX row col : ℝ), (r.pixelY row col : ℝ))
  else r.reproject (r.pixelX row col) (r.pixelY row col)

/-- `max(0, min(i, n - 1))`, the per-bound clamp of the window computation. -/
def clampIdx (i : ℤ) (n : ℕ) : ℤ := max 0 (min i ((n : ℤ) - 1))

/-- `if hi < lo: hi = lo`, the interval-collapse step. -/
def collapseHi (lo hi : ℤ) : ℤ := if hi < lo then lo else hi

/-- The inclusive pixel-index window read by `population_within_radius`. -/
structure Window where
  row_min : ℤ
  row_max : ℤ
  col_min : ℤ
  col_max : ℤ
deriving DecidableEq

/-- All pixel `(row, col)` pairs of a window (the band read is
`((row_min, row_max + 1), (col_min, col_max + 1))`, inclusive bounds). -/
def Window.pixels (w : Window) : Finset (ℤ × ℤ) :=
  Finset.Icc w.row_min w.row_max ×ˢ Finset.Icc w.col_min w.col_max

/-- The window computation of `population_within_radius`: degree bounding box
with the fixed 111 km/degree conversion, corner lookup through
`raster.index`, clamp to pixel bounds, collapse of inverted intervals.
`none` is the `except: return 0.0` path. -/
def computeWindow (r : Raster) (lat lon radius_km : ℚ) : Option Window :=
  let radius_deg := radius_km / 111
  let minx := lon - radius_deg
  let maxx := lon + radius_deg
  let miny := lat - radius_deg
  let maxy := lat + radius_deg
  match r.index minx maxy, r.index maxx miny with
  | some (ri, ci), some (ra, ca) =>
      let row_min := clampIdx ri r.height
      let row_max := clampIdx ra r.height
      let col_min := clampIdx ci r.width
      let col_max := clampIdx ca r.width
      some ⟨row_min, collapseHi row_min row_max, col_min, collapseHi col_min col_max⟩
  | _, _ => none

/-- The cell value a masked read contributes: the stored value, with NaN
(never selected by the mask) reading as 0 under `np.nansum`. -/
noncomputable def bandValue (r : Raster) (p : ℤ × ℤ) : ℝ :=
  match r.data p.1 p.2 with
  | some v => (v : ℝ)
  | none => 0

/-- The code's mask `(band > 0) & (~np.isnan(band)) & (dist_km <= radius_km)`
at one pixel; NumPy's `NaN > 0` is `False`. -/
def cellValid (r : Raster) (lat lon radius_km : ℚ) (p : ℤ × ℤ) : Prop :=
  (match r.data p.1 p.2 with
   | some v => 0 < v
   | none => False) ∧
  (r.data p.1 p.2).isSome = true ∧
  haversine_km (lat : ℝ) (lon : ℝ) (r.pixelLonLat p.1 p.2).2 (r.pixelLonLat p.1 p.2).1
    ≤ (radius_km : ℝ)

noncomputable instance (r : Raster) (lat lon radius_km : ℚ) (p : ℤ × ℤ) :
    Decidable (cellValid r lat lon radius_km p) := Classical.propDecidable _

/-- `exposure.population_within_radius`: bounding box, window, clamp,
collapse, masked sum.  Total; the `except` path returns `0.0`. -/
noncomputable def population_within_radius (r : Raster) (lat lon radius_km : ℚ) : ℝ :=
  match computeWindow r lat lon radius_km with
  | none => 0
  | some w =>
      ∑ p ∈ w.pixels, if cellValid r lat lon radius_km p then bandValue r p else 0

/-- The specification-side predicate of claim C1: the pixel holds an actual
(non-NaN) value that is strictly positive, and its haversine distance
(Earth radius 6371.0 km) from the query center is at most `radius_km`,
boundary inclusive. -/
def isCounted (r : Raster) (lat lon radius_km : ℚ) (p : ℤ × ℤ) : Prop :=
  (∃ v : ℚ, r.data p.1 p.2 = some v ∧ 0 < v) ∧
  haversine_km (lat : ℝ) (lon : ℝ) (r.pixelLonLat p.1 p.2).2 (r.pixelLonLat p.1 p.2).1
    ≤ (radius_km : ℝ)

noncomputable instance (r : Raster) (lat lon radius_km : ℚ) (p : ℤ × ℤ) :
    Decidable (isCounted r lat lon radius_km p) := Classical.propDecidable _

/-- The sum the specification describes: over the window's pixels, the cell
values of exactly those pixels that `isCounted` selects. -/
noncomputable def countedSum (r : Raster) (lat lon radius_km : ℚ) (w : Window) : ℝ :=
  ∑ p ∈ w.pixels, if isCounted r lat lon radius_km p then bandValue r p else 0

/-! ## impact.py -/

/-- `impact.kinetic_energy_joules`. -/
noncomputable def kinetic_energy_joules (mass_kg velocity_km_s : ℝ) : ℝ :=
  0.5 * mass_kg * (velocity_km_s * 1000) ^ 2

/-- `impact.crater_diameter_km` (Gault scaling): spherical mass, then
`0.01 * energy**(1/4) / 1000`.  The source performs no input validation. -/
noncomputable def crater_diameter_km (diameter_m velocity_km_s : ℝ)
    (density_kg_m3 : ℝ := 3000) : ℝ :=
  0.01 * (kinetic_energy_joules (4 / 3 * Real.pi * (diameter_m / 2) ^ 3 * density_kg_m3)
      velocity_km_s) ^ ((1 : ℝ) / 4) / 1000

/-- `impact.blast_radius_km`. -/
noncomputable def blast_radius_km (crater_km : ℝ) : ℝ := crater_km * 2.0

/-- `impact.thermal_radiation_radius_km`. -/
noncomputable def thermal_radiation_radius_km (crater_km : ℝ) : ℝ := crater_km * 4.0

/-! ## orbital.py -/

/-- The message of the `ValueError` that `predict_impact_point` raises. -/
def downwardErr : String := "Flight path angle must indicate downward trajectory (> 0)."

/-- `orbital.predict_impact_point`, parametric in pyproj's `geod.fwd`
(`fwd lon lat azimuth dist_meters = (lon2, lat2, back_azimuth)`). -/
noncomputable def predict_impact_point (fwd : ℝ → ℝ → ℝ → ℝ → ℝ × ℝ × ℝ)
    (lat_entry lon_entry velocity_km_s flight_path_angle_deg : ℝ)
    (entry_altitude_km : ℝ := 120.0) : Except String (ℝ × ℝ) :=
  let vertical_velocity := velocity_km_s * Real.sin (radiansR flight_path_angle_deg)
  if vertical_velocity ≤ 0 then Except.error downwardErr
  else
    let time_to_impact := entry_altitude_km / vertical_velocity
    let horizontal_velocity := velocity_km_s * Real.cos (radiansR flight_path_angle_deg)
    let downrange_km := horizontal_velocity * time_to_impact
    let azimuth : ℝ := 180.0
    let p := fwd lon_entry lat_entry azimuth (downrange_km * 1000)
    Except.ok (p.2.1, p.1)

/-- `orbital.simulate_deflection_effect`, parametric in `geod.fwd`.  Note the
source passes `-downrange_shift_km` (a km-denominated magnitude, negated) as
the meters-denominated distance of `geod.fwd`. -/
noncomputable def simulate_deflection_effect (fwd : ℝ → ℝ → ℝ → ℝ → ℝ × ℝ × ℝ)
    (lat_impact lon_impact delta_v_m_s lead_time_days original_velocity_km_s : ℝ) :
    ℝ × ℝ :=
  let seconds := lead_time_days * 86400.0
  let displacement_km := delta_v_m_s * seconds / 1000.0
  let scale_factor := delta_v_m_s / (original_velocity_km_s * 1000.0)
  let downrange_shift_km := displacement_km * scale_factor * 1000
  let azimuth : ℝ := 180.0
  let p := fwd lon_impact lat_impact azimuth (-downrange_shift_km)
  (p.2.1, p.1)

/-- A concrete stand-in geodesic forward projection (flat-plane displacement)
used to instantiate `fwd` in witnesses; it ends at its start point for a
zero-length path, like any forward projection. -/
noncomputable def flatFwd (lon lat az dist : ℝ) : ℝ × ℝ × ℝ :=
  (lon + dist * Real.sin (radiansR az), lat + dist * Real.cos (radiansR az), az)

/-! ## Shared helper lemmas -/

lemma clampIdx_nonneg (i : ℤ) (n : ℕ) : 0 ≤ clampIdx i n := le_max_left 0 _

lemma clampIdx_le (i : ℤ) {n : ℕ} (hn : 1 ≤ n) : clampIdx i n ≤ (n : ℤ) - 1 := by
  unfold clampIdx
  have h1 : (0 : ℤ) ≤ (n : ℤ) - 1 := by
    have : (1 : ℤ) ≤ (n : ℤ) := by exact_mod_cast hn
    omega
  exact max_le h1 (min_le_right _ _)

lemma clampIdx_mono (n : ℕ) : Monotone fun i => clampIdx i n := fun i j hij => by
  unfold clampIdx
  exact max_le_max le_rfl (min_le_min hij le_rfl)

lemma collapseHi_le_left (lo hi : ℤ) : lo ≤ collapseHi lo hi := by
  unfold collapseHi
  split
  · exact le_rfl
  · omega

lemma collapseHi_le {lo hi b : ℤ} (h1 : lo ≤ b) (h2 : hi ≤ b) : collapseHi lo hi ≤ b := by
  unfold collapseHi
  split <;> assumption

lemma collapseHi_of_le {lo hi : ℤ} (h : lo ≤ hi) : collapseHi lo hi = hi := by
  unfold collapseHi
  omega

/-- Structure of a successfully computed window: each bound is the clamp of a
corner index, with the collapse applied to the upper bounds. -/
lemma computeWindow_eq {r : Raster} {lat lon radius_km : ℚ} {w : Window}
    (hcw : computeWindow r lat lon radius_km = some w) :
    r.det ≠ 0 ∧
    ∃ ri ci ra ca : ℤ,
      r.index (lon - radius_km / 111) (lat + radius_km / 111) = some (ri, ci) ∧
      r.index (lon + radius_km / 111) (lat - radius_km / 111) = some (ra, ca) ∧
      w = ⟨clampIdx ri r.height, collapseHi (clampIdx ri r.height) (clampIdx ra r.height),
           clampIdx ci r.width, collapseHi (clampIdx ci r.width) (clampIdx ca r.width)⟩ := by
  by_cases hdet : r.det = 0
  · exfalso
    unfold computeWindow Raster.index at hcw
    simp only [if_pos hdet] at hcw
    exact Option.noConfusion hcw
  · refine ⟨hdet, ?_⟩
    unfold computeWindow Raster.index at hcw
    simp only [if_neg hdet, Option.some.injEq] at hcw
    exact ⟨_, _, _, _, by rw [Raster.index, if_neg hdet], by rw [Raster.index, if_neg hdet],
      hcw.symm⟩

/-- Bounds of a successfully computed window (needs a nonempty raster). -/
lemma computeWindow_bounds {r : Raster} {lat lon radius_km : ℚ} {w : Window}
    (hh : 1 ≤ r.height) (hw : 1 ≤ r.width)
    (hcw : computeWindow r lat lon radius_km = some w) :
    0 ≤ w.row_min ∧ w.row_min ≤ w.row_max ∧ w.row_max ≤ (r.height : ℤ) - 1 ∧
    0 ≤ w.col_min ∧ w.col_min ≤ w.col_max ∧ w.col_max ≤ (r.width : ℤ) - 1 := by
  obtain ⟨-, ri, ci, ra, ca, -, -, hwin⟩ := computeWindow_eq hcw
  subst hwin
  refine ⟨clampIdx_nonneg _ _, collapseHi_le_left _ _,
    collapseHi_le (clampIdx_le _ hh) (clampIdx_le _ hh),
    clampIdx_nonneg _ _, collapseHi_le_left _ _,
    collapseHi_le (clampIdx_le _ hw) (clampIdx_le _ hw)⟩

/-- The per-pixel summand of `population_within_radius` is nonnegative: the
mask only selects strictly positive actual values. -/
lemma summand_nonneg (r : Raster) (lat lon radius_km : ℚ) (p : ℤ × ℤ) :
    0 ≤ if cellValid r lat lon radius_km p then bandValue r p else 0 := by
  split
  · rename_i h
    obtain ⟨h1, -, -⟩ := h
    unfold bandValue
    cases hd : r.data p.1 p.2 with
    | none => exact le_rfl
    | some v =>
        rw [hd] at h1
        simp only
        exact_mod_cast le_of_lt h1
  · exact le_rfl

/-! ## Claim theorems: C1, C4, C5, C7, C8, C10 -/

/-- C1: for every raster, center and radius, `population_within_radius`
returns exactly the sum of the window's cell values over those pixels whose
value is strictly positive, is not NaN, and whose haversine distance
(Earth radius 6371.0 km) from the center is at most `radius_km` — the
boundary `distance = radius_km` inclusive, and negative or NaN cell values
never contributing. -/
theorem pop_eq_masked_sum (r : Raster) (lat lon radius_km : ℚ) (w : Window)
    (hcw : computeWindow r lat lon radius_km = some w) :
    population_within_radius r lat lon radius_km = countedSum r lat lon radius_km w := by
  unfold population_within_radius countedSum
  rw [hcw]
  refine Finset.sum_congr rfl fun p _ => ?_
  have hiff : cellValid r lat lon radius_km p ↔ isCounted r lat lon radius_km p := by
    unfold cellValid isCounted
    cases hd : r.data p.1 p.2 with
    | none => simp [hd]
    | some v => simp [hd]
  by_cases h : isCounted r lat lon radius_km p
  · rw [if_pos (hiff.mpr h), if_pos h]
  · rw [if_neg (fun hc => h (hiff.mp hc)), if_neg h]

/-- A 1×1 geographic raster whose single cell (value 7) covers
`[-1/2, 1/2] × [-1/2, 1/2]`. -/
noncomputable def c1Raster : Raster :=
  { height := 1, width := 1, ta := 1, tb := 0, tc := -(1/2), td := 0, te := -1, tf := 1/2,
    is_geographic := true, reproject := fun _ _ => (0, 0), data := fun _ _ => some 7 }

/-- Witness for C1 at a concrete raster, center and radius. -/
theorem pop_eq_masked_sum_witness :
    population_within_radius c1Raster 0 0 1 = countedSum c1Raster 0 0 1 ⟨0, 0, 0, 0⟩ :=
  pop_eq_masked_sum c1Raster 0 0 1 ⟨0, 0, 0, 0⟩
    (by norm_num [computeWindow, Raster.index, Raster.det, c1Raster, clampIdx, collapseHi])

/-- C4: after clamping (and interval collapse), every successfully computed
window satisfies `0 ≤ row_min ≤ row_max ≤ height-1` and
`0 ≤ col_min ≤ col_max ≤ width-1`: the window read is at least 1×1, never
empty or invalid. -/
theorem window_bounds_invariant (r : Raster) (lat lon radius_km : ℚ) (w : Window)
    (hh : 1 ≤ r.height) (hw : 1 ≤ r.width)
    (hcw : computeWindow r lat lon radius_km = some w) :
    0 ≤ w.row_min ∧ w.row_min ≤ w.row_max ∧ w.row_max ≤ (r.height : ℤ) - 1 ∧
    0 ≤ w.col_min ∧ w.col_min ≤ w.col_max ∧ w.col_max ≤ (r.width : ℤ) - 1 :=
  computeWindow_bounds hh hw hcw

/-- Witness for C4 at a concrete raster and query. -/
theorem window_bounds_invariant_witness :
    0 ≤ (Window.mk 0 0 0 0).row_min ∧
    (Window.mk 0 0 0 0).row_min ≤ (Window.mk 0 0 0 0).row_max ∧
    (Window.mk 0 0 0 0).row_max ≤ (c1Raster.height : ℤ) - 1 ∧
    0 ≤ (Window.mk 0 0 0 0).col_min ∧
    (Window.mk 0 0 0 0).col_min ≤ (Window.mk 0 0 0 0).col_max ∧
    (Window.mk 0 0 0 0).col_max ≤ (c1Raster.width : ℤ) - 1 :=
  window_bounds_invariant c1Raster 0 0 2 ⟨0, 0, 0, 0⟩ (by norm_num [c1Raster])
    (by norm_num [c1Raster])
    (by norm_num [computeWindow, Raster.index, Raster.det, c1Raster, clampIdx, collapseHi])

/-- C5 (code-bug evidence): `crater_diameter_km` performs no input
validation at all — at the physically invalid input `diameter_m = 0`,
`velocity_km_s = 20` it silently returns `0.0` instead of failing with a
`DomainError` as the specification requires (for negative diameters the
Python `**` even produces a complex number). -/
theorem crater_zero_diameter_no_error : crater_diameter_km 0 20 = 0 := by
  unfold crater_diameter_km
  have h : kinetic_energy_joules (4 / 3 * Real.pi * ((0 : ℝ) / 2) ^ 3 * 3000) 20 = 0 := by
    unfold kinetic_energy_joules; ring
  rw [h, Real.zero_rpow (by norm_num : (1 : ℝ) / 4 ≠ 0)]
  ring

/-- C7 (code-bug evidence): at the module's own demo input
(`lat=10, lon=80, Δv=5 m/s, lead 60 days, v=20 km/s`) the downrange shift
computes to `6480` (km), but the code hands `geod.fwd` the NEGATED value
`-6480` as its meters-denominated distance argument: the point moves 6.48 km
due north instead of 6480 km due south, contradicting both the claim and
the code's own comment. -/
theorem simulate_deflection_negated_shift_eval (fwd : ℝ → ℝ → ℝ → ℝ → ℝ × ℝ × ℝ) :
    simulate_deflection_effect fwd 10 80 5 60 20 =
      ((fwd 80 10 180.0 (-6480)).2.1, (fwd 80 10 180.0 (-6480)).1) := by
  simp only [simulate_deflection_effect]
  norm_num

/-- C8: for every `c ≥ 0`, `blast_radius_km c` is exactly `2.0 · c` and
`thermal_radiation_radius_km c` is exactly `4.0 · c`. -/
theorem blast_thermal_scaling (c : ℝ) (hc : 0 ≤ c) :
    blast_radius_km c = 2.0 * c ∧ thermal_radiation_radius_km c = 4.0 * c :=
  ⟨mul_comm c 2.0, mul_comm c 4.0⟩

/-- Witness for C8 at `c = 1`. -/
theorem blast_thermal_scaling_witness :
    blast_radius_km 1 = 2.0 * 1 ∧ thermal_radiation_radius_km 1 = 4.0 * 1 :=
  blast_thermal_scaling 1 zero_le_one

/-- C10: for any geodesic forward projection (zero-length paths end at the
start point) and positive original velocity, a deflection with `Δv = 0` or
with `lead_time_days = 0` leaves the impact point unchanged. -/
theorem zero_deflection_identity (fwd : ℝ → ℝ → ℝ → ℝ → ℝ × ℝ × ℝ)
    (lat lon dv t v : ℝ)
    (hfwd : ∀ lo la az : ℝ, (fwd lo la az 0).1 = lo ∧ (fwd lo la az 0).2.1 = la)
    (hv : 0 < v) :
    simulate_deflection_effect fwd lat lon 0 t v = (lat, lon) ∧
    simulate_deflection_effect fwd lat lon dv 0 v = (lat, lon) := by
  refine ⟨?_, ?_⟩ <;>
  · simp only [simulate_deflection_effect, zero_mul, mul_zero, zero_div, neg_zero]
    rw [(hfwd lon lat 180.0).2, (hfwd lon lat 180.0).1]

/-- Witness for C10 with the concrete flat-plane forward projection. -/
theorem zero_deflection_identity_witness :
    simulate_deflection_effect flatFwd 10 80 0 60 20 = (10, 80) ∧
    simulate_deflection_effect flatFwd 10 80 5 0 20 = (10, 80) :=
  zero_deflection_identity flatFwd 10 80 5 60 20
    (fun lo la az => ⟨by simp [flatFwd], by simp [flatFwd]⟩) (by norm_num)

/-! ## Claim C6 -/

/-- The sign of `sin` of `radiansR θ` over one turn: nonpositive exactly on
`[-180, 0] ∪ [180, 360]`, positive on `(0, 180)`. -/
lemma sin_radiansR_nonpos_iff {θ : ℝ} (h1 : -180 ≤ θ) (h2 : θ ≤ 360) :
    Real.sin (radiansR θ) ≤ 0 ↔ (θ ≤ 0 ∨ 180 ≤ θ) := by
  have hpi := Real.pi_pos
  constructor
  · intro h
    by_contra hc
    push_neg at hc
    obtain ⟨h0, h180⟩ := hc
    have hs : 0 < Real.sin (radiansR θ) := by
      apply Real.sin_pos_of_pos_of_lt_pi
      · unfold radiansR
        positivity
      · unfold radiansR
        rw [div_lt_iff (by norm_num)]
        nlinarith
    linarith
  · intro h
    rcases h with h | h
    · apply Real.sin_nonpos_of_nonnpos_of_neg_pi_le
      · unfold radiansR
        have hnum : θ * Real.pi ≤ 0 := mul_nonpos_of_nonpos_of_nonneg h hpi.le
        linarith
      · unfold radiansR
        rw [neg_le, ← neg_div, ← neg_mul]
        rw [div_le_iff (by norm_num)]
        nlinarith
    · have hs2 : 0 ≤ Real.sin (radiansR θ - Real.pi) := by
        apply Real.sin_nonneg_of_nonneg_of_le_pi
        · unfold radiansR
          rw [sub_nonneg, le_div_iff (by norm_num)]
          nlinarith
        · unfold radiansR
          rw [sub_le_iff_le_add, div_le_iff (by norm_num)]
          nlinarith
      rw [Real.sin_sub_pi] at hs2
      linarith

/-- C6 counterexample: at `velocity_km_s = 0` and the strictly downward
angle `90°`, the code raises (the vertical velocity is `0 · sin 90° = 0`,
not positive), although the claim promises that every angle strictly
between 0 and 180 returns an impact coordinate pair without raising. -/
theorem predict_zero_velocity_counterexample :
    ((0 : ℝ) < 90 ∧ (90 : ℝ) < 180) ∧
    predict_impact_point flatFwd 10 80 0 90 120 = Except.error downwardErr := by
  refine ⟨⟨by norm_num, by norm_num⟩, ?_⟩
  simp [predict_impact_point]

/-- C6 amended: for a strictly positive entry velocity and a flight path
angle within one turn (`-180° ≤ angle ≤ 360°`), `predict_impact_point`
raises its `DomainError` (the `ValueError` of the source) exactly when
`angle ≤ 0` or `angle ≥ 180`, and returns an impact pair for every angle
strictly between 0 and 180.  The code's raise condition is
`velocity · sin(radians angle) ≤ 0`, so zero velocity (see the
counterexample) or an angle beyond one turn falsifies the claim as
stated. -/
theorem predict_impact_raise_iff (fwd : ℝ → ℝ → ℝ → ℝ → ℝ × ℝ × ℝ)
    (lat lon v θ alt : ℝ) (hv : 0 < v) (h1 : -180 ≤ θ) (h2 : θ ≤ 360) :
    predict_impact_point fwd lat lon v θ alt = Except.error downwardErr ↔
      (θ ≤ 0 ∨ 180 ≤ θ) := by
  have hsin : v * Real.sin (radiansR θ) ≤ 0 ↔ (θ ≤ 0 ∨ 180 ≤ θ) := by
    rw [← sin_radiansR_nonpos_iff h1 h2]
    constructor
    · intro h
      by_contra hc
      push_neg at hc
      nlinarith
    · intro h
      exact mul_nonpos_of_nonneg_of_nonpos hv.le h
  simp only [predict_impact_point]
  by_cases h : v * Real.sin (radiansR θ) ≤ 0
  · rw [if_pos h]
    exact iff_of_true rfl (hsin.mp h)
  · rw [if_neg h]
    exact iff_of_false (by simp) (fun hr => h (hsin.mpr hr))

/-- Witness for the amended C6 at a concrete downward scenario. -/
theorem predict_impact_raise_iff_witness :
    (predict_impact_point flatFwd 10 80 20 30 120 = Except.error downwardErr ↔
      ((30 : ℝ) ≤ 0 ∨ (180 : ℝ) ≤ 30)) :=
  predict_impact_raise_iff flatFwd 10 80 20 30 120 (by norm_num) (by norm_num) (by norm_num)

/-! ## Claim C2 -/

/-- Haversine distance from a point to itself is zero. -/
lemma haversine_self (lat lon : ℝ) : haversine_km lat lon lat lon = 0 := by
  unfold haversine_km radiansR
  simp

/-- Evaluation of `population_within_radius` when the computed window is a
single pixel. -/
lemma pop_single_cell (r : Raster) (lat lon radius_km : ℚ) (a b : ℤ)
    (hcw : computeWindow r lat lon radius_km = some ⟨a, a, b, b⟩) :
    population_within_radius r lat lon radius_km =
      if cellValid r lat lon radius_km (a, b) then bandValue r (a, b) else 0 := by
  unfold population_within_radius
  rw [hcw]
  unfold Window.pixels
  simp only [Finset.Icc_self, Finset.singleton_product_singleton, Finset.sum_singleton]

/-- A 2×1 south-up geographic raster (`e = 1` in the affine transform): rows
grow northward.  Row 0 covers `[-1/2,1/2]×[-1/2,1/2]` with value 100, row 1
covers `[-1/2,1/2]×[1/2,3/2]` with value 0. -/
noncomputable def southUpRaster : Raster :=
  { height := 2, width := 1, ta := 1, tb := 0, tc := -(1/2), td := 0, te := 1, tf := -(1/2),
    is_geographic := true, reproject := fun _ _ => (0, 0),
    data := fun row _ => if row = 0 then some 100 else some 0 }

/-- C2 counterexample: on a south-up raster, `population_within_radius` is
not monotone in the radius.  At center `(-1/2, -1/2)` the radius `11.1 km`
window is pixel `(0,0)` (value 100, distance 0), but at radius `133.2 km`
the corner lookup inverts, the collapse step snaps the window to pixel
`(1,0)` (value 0) and the result drops from 100 to 0. -/
theorem pop_monotone_counterexample :
    (0 : ℚ) ≤ 111 / 10 ∧ (111 / 10 : ℚ) ≤ 666 / 5 ∧
    ¬(population_within_radius southUpRaster (-(1 / 2)) (-(1 / 2)) (111 / 10) ≤
        population_within_radius southUpRaster (-(1 / 2)) (-(1 / 2)) (666 / 5)) := by
  have h1 : population_within_radius southUpRaster (-(1 / 2)) (-(1 / 2)) (111 / 10) = 100 := by
    rw [pop_single_cell southUpRaster (-(1 / 2)) (-(1 / 2)) (111 / 10) 0 0
      (by norm_num [computeWindow, Raster.index, Raster.det, southUpRaster, clampIdx,
        collapseHi])]
    rw [if_pos, bandValue]
    · norm_num [southUpRaster]
    · refine ⟨by norm_num [southUpRaster], by norm_num [southUpRaster], ?_⟩
      have hp : southUpRaster.pixelLonLat 0 0 =
          (((-(1 / 2) : ℚ) : ℝ), ((-(1 / 2) : ℚ) : ℝ)) := by
        norm_num [Raster.pixelLonLat, southUpRaster, Raster.pixelX, Raster.pixelY]
      rw [hp]
      rw [haversine_self]
      norm_num
  have h2 : population_within_radius southUpRaster (-(1 / 2)) (-(1 / 2)) (666 / 5) = 0 := by
    rw [pop_single_cell southUpRaster (-(1 / 2)) (-(1 / 2)) (666 / 5) 1 0
      (by norm_num [computeWindow, Raster.index, Raster.det, southUpRaster, clampIdx,
        collapseHi])]
    rw [if_neg]
    intro hval
    have := hval.1
    norm_num [southUpRaster] at this
  refine ⟨by norm_num, by norm_num, ?_⟩
  rw [h1, h2]
  norm_num

/-- For a diagonal north-up affine transform (`b = d = 0`, `a > 0`, `e < 0`)
the corner lookup reduces to independent floors per axis. -/
lemma index_north_up {r : Raster} (htb : r.tb = 0) (htd : r.td = 0)
    (hta : 0 < r.ta) (hte : r.te < 0) (x y : ℚ) :
    r.index x y = some (⌊(y - r.tf) / r.te⌋, ⌊(x - r.tc) / r.ta⌋) := by
  have hdet : r.det = r.ta * r.te := by unfold Raster.det; rw [htb, htd]; ring
  have hdet0 : r.det ≠ 0 := by rw [hdet]; exact mul_ne_zero hta.ne' hte.ne
  unfold Raster.index
  rw [if_neg hdet0]
  have hrow : (r.ta * (y - r.tf) - r.td * (x - r.tc)) / r.det = (y - r.tf) / r.te := by
    rw [htd, hdet, zero_mul, sub_zero, mul_div_mul_left _ _ hta.ne']
  have hcol : (r.te * (x - r.tc) - r.tb * (y - r.tf)) / r.det = (x - r.tc) / r.ta := by
    rw [htb, hdet, zero_mul, sub_zero, mul_comm r.ta r.te, mul_div_mul_left _ _ hte.ne]
  rw [hrow, hcol]

/-- North-up window: for a nonnegative radius the interval collapse is a
no-op and the window is given by the four clamped floors directly. -/
lemma computeWindow_north_up {r : Raster} (htb : r.tb = 0) (htd : r.td = 0)
    (hta : 0 < r.ta) (hte : r.te < 0) (lat lon s : ℚ) (hs : 0 ≤ s) :
    computeWindow r lat lon s =
      some ⟨clampIdx ⌊(lat + s / 111 - r.tf) / r.te⌋ r.height,
            clampIdx ⌊(lat - s / 111 - r.tf) / r.te⌋ r.height,
            clampIdx ⌊(lon - s / 111 - r.tc) / r.ta⌋ r.width,
            clampIdx ⌊(lon + s / 111 - r.tc) / r.ta⌋ r.width⟩ := by
  have hΔ : (0 : ℚ) ≤ s / 111 := by positivity
  simp only [computeWindow]
  rw [index_north_up htb htd hta hte, index_north_up htb htd hta hte]
  dsimp only
  have hrow : clampIdx ⌊(lat + s / 111 - r.tf) / r.te⌋ r.height ≤
      clampIdx ⌊(lat - s / 111 - r.tf) / r.te⌋ r.height := by
    apply clampIdx_mono
    apply Int.floor_le_floor
    exact (div_le_div_right_of_neg hte).mpr (by linarith)
  have hcol : clampIdx ⌊(lon - s / 111 - r.tc) / r.ta⌋ r.width ≤
      clampIdx ⌊(lon + s / 111 - r.tc) / r.ta⌋ r.width := by
    apply clampIdx_mono
    apply Int.floor_le_floor
    exact (div_le_div_right hta).mpr (by linarith)
  rw [collapseHi_of_le hrow, collapseHi_of_le hcol]

/-- Rewriting `population_within_radius` through a known window. -/
lemma pop_eq_sum {r : Raster} {lat lon s : ℚ} {w : Window}
    (hcw : computeWindow r lat lon s = some w) :
    population_within_radius r lat lon s =
      ∑ p ∈ w.pixels, if cellValid r lat lon s p then bandValue r p else 0 := by
  unfold population_within_radius
  rw [hcw]

/-- The code's mask is monotone in the radius. -/
lemma cellValid_mono {r : Raster} {lat lon r1 r2 : ℚ} (h12 : r1 ≤ r2) (p : ℤ × ℤ)
    (h : cellValid r lat lon r1 p) : cellValid r lat lon r2 p := by
  obtain ⟨h1, h2, h3⟩ := h
  exact ⟨h1, h2, le_trans h3 (by exact_mod_cast h12)⟩

/-- Masked sums grow with the radius and the pixel set. -/
lemma sum_mask_mono {r : Raster} {lat lon r1 r2 : ℚ} (h12 : r1 ≤ r2)
    {s1 s2 : Finset (ℤ × ℤ)} (hsub : s1 ⊆ s2) :
    (∑ p ∈ s1, if cellValid r lat lon r1 p then bandValue r p else 0) ≤
      ∑ p ∈ s2, if cellValid r lat lon r2 p then bandValue r p else 0 := by
  calc (∑ p ∈ s1, if cellValid r lat lon r1 p then bandValue r p else 0)
      ≤ ∑ p ∈ s1, if cellValid r lat lon r2 p then bandValue r p else 0 := by
        apply Finset.sum_le_sum
        intro p _
        by_cases h : cellValid r lat lon r1 p
        · rw [if_pos h, if_pos (cellValid_mono h12 p h)]
        · rw [if_neg h]
          exact summand_nonneg r lat lon r2 p
    _ ≤ _ := Finset.sum_le_sum_of_subset_of_nonneg hsub
        (fun p _ _ => summand_nonneg r lat lon r2 p)

/-- C2 amended: for every raster whose affine transform is north-up and
axis-aligned (`b = d = 0`, `a > 0`, `e < 0` — the orientation of standard
geographic rasters such as WorldPop) and fixed center,
`population_within_radius` is monotone in the radius: `0 ≤ r1 ≤ r2` implies
`population_within_radius r1 ≤ population_within_radius r2`.  (For other
orientations the collapse step can move the window away; see the
counterexample.) -/
theorem pop_monotone_north_up (r : Raster) (lat lon r1 r2 : ℚ)
    (htb : r.tb = 0) (htd : r.td = 0) (hta : 0 < r.ta) (hte : r.te < 0)
    (hr1 : 0 ≤ r1) (h12 : r1 ≤ r2) :
    population_within_radius r lat lon r1 ≤ population_within_radius r lat lon r2 := by
  have hr2 : 0 ≤ r2 := le_trans hr1 h12
  rw [pop_eq_sum (computeWindow_north_up htb htd hta hte lat lon r1 hr1),
    pop_eq_sum (computeWindow_north_up htb htd hta hte lat lon r2 hr2)]
  apply sum_mask_mono h12
  unfold Window.pixels
  apply Finset.product_subset_product
  · apply Finset.Icc_subset_Icc
    · exact clampIdx_mono _ (Int.floor_le_floor ((div_le_div_right_of_neg hte).mpr
        (by linarith)))
    · exact clampIdx_mono _ (Int.floor_le_floor ((div_le_div_right_of_neg hte).mpr
        (by linarith)))
  · apply Finset.Icc_subset_Icc
    · exact clampIdx_mono _ (Int.floor_le_floor ((div_le_div_right hta).mpr
        (by linarith)))
    · exact clampIdx_mono _ (Int.floor_le_floor ((div_le_div_right hta).mpr
        (by linarith)))

/-- Witness for the amended C2 on a concrete north-up raster and radii. -/
theorem pop_monotone_north_up_witness :
    population_within_radius c1Raster 0 0 1 ≤ population_within_radius c1Raster 0 0 2 :=
  pop_monotone_north_up c1Raster 0 0 1 2 (by norm_num [c1Raster]) (by norm_num [c1Raster])
    (by norm_num [c1Raster]) (by norm_num [c1Raster]) (by norm_num) (by norm_num)

/-! ## Claim C3 -/

/-- C3 amended: `population_within_radius` is a total function (the
out-of-domain lookup path returns 0.0 rather than raising), and it returns
exactly `0.0` whenever every pixel of the raster lies at haversine distance
strictly greater than `radius_km` from the center — in particular for any
center far outside the raster's coverage relative to the radius.  (A center
merely beyond the raster's extent does not suffice: the clamp step still
reads a boundary window, and at high latitude a boundary cell can lie
within `radius_km` even though the degree bounding box misses the extent —
see the counterexample.) -/
theorem pop_far_outside_zero (r : Raster) (lat lon radius_km : ℚ)
    (hh : 1 ≤ r.height) (hw : 1 ≤ r.width)
    (hfar : ∀ row col : ℤ, 0 ≤ row → row < (r.height : ℤ) → 0 ≤ col → col < (r.width : ℤ) →
      (radius_km : ℝ) < haversine_km (lat : ℝ) (lon : ℝ)
        (r.pixelLonLat row col).2 (r.pixelLonLat row col).1) :
    population_within_radius r lat lon radius_km = 0 := by
  unfold population_within_radius
  cases hcw : computeWindow r lat lon radius_km with
  | none => rfl
  | some w =>
      apply Finset.sum_eq_zero
      intro p hp
      obtain ⟨hrm, hrM, hrT, hcm, hcM, hcT⟩ := computeWindow_bounds hh hw hcw
      rw [Window.pixels, Finset.mem_product, Finset.mem_Icc, Finset.mem_Icc] at hp
      obtain ⟨hp1, hp2⟩ := hp
      rw [if_neg]
      intro hvalid
      have hd := hvalid.2.2
      have hfar2 := hfar p.1 p.2 (le_trans hrm hp1.1) (by omega) (le_trans hcm hp2.1) (by omega)
      linarith

/-- A 1×1 geographic raster whose cell sits at 50°N, far from the
origin-centered witness query below. -/
noncomputable def farRaster : Raster :=
  { height := 1, width := 1, ta := 1, tb := 0, tc := 0, td := 0, te := -1, tf := 50,
    is_geographic := true, reproject := fun _ _ => (0, 0), data := fun _ _ => some 1000 }

/-- Witness for the amended C3: the cell at 50°N is ≈5560 km from the
origin, so a 100 km query there returns exactly 0. -/
theorem pop_far_outside_zero_witness :
    population_within_radius farRaster 0 0 100 = 0 :=
  pop_far_outside_zero farRaster 0 0 100 (by norm_num [farRaster]) (by norm_num [farRaster])
    (fun row col hr0 hr1 hc0 hc1 => by
      have hrow : row = 0 := by
        simp only [farRaster] at hr1
        omega
      have hcol : col = 0 := by
        simp only [farRaster] at hc1
        omega
      subst hrow
      subst hcol
      have hp : farRaster.pixelLonLat 0 0 = ((0 : ℝ), (50 : ℝ)) := by
        norm_num [Raster.pixelLonLat, farRaster, Raster.pixelX, Raster.pixelY]
      rw [hp]
      have hpi := Real.pi_pos
      have hz : radiansR 0 = 0 := by unfold radiansR; ring
      have e1 : haversine_km ((0 : ℚ) : ℝ) ((0 : ℚ) : ℝ) (0, (50 : ℝ)).2 (0, (50 : ℝ)).1 =
          2 * 6371.0 * Real.arcsin (Real.sqrt (Real.sin (radiansR 50 / 2) ^ 2)) := by
        simp only [haversine_km]
        norm_num [hz, Real.sin_zero, Real.cos_zero]
      rw [e1]
      have h25 : radiansR 50 / 2 = 25 * Real.pi / 180 := by unfold radiansR; ring
      rw [h25]
      have hsnn : 0 ≤ Real.sin (25 * Real.pi / 180) :=
        Real.sin_nonneg_of_nonneg_of_le_pi (by positivity) (by nlinarith)
      rw [Real.sqrt_sq hsnn]
      rw [Real.arcsin_sin (by nlinarith) (by nlinarith)]
      have h100 : ((100 : ℚ) : ℝ) = 100 := by norm_num
      rw [h100]
      nlinarith [Real.pi_gt_three])

/-- A 1×1 geographic raster at 80.5°N: the cell covers
`[-1/2, 1/2] × [79.5, 80.5]` with value 1000. -/
noncomputable def polarRaster : Raster :=
  { height := 1, width := 1, ta := 1, tb := 0, tc := -(1 / 2), td := 0, te := -1, tf := 161 / 2,
    is_geographic := true, reproject := fun _ _ => (0, 0), data := fun _ _ => some 1000 }

/-- The cell corner of `polarRaster` (80.5°N, 0.5°W) is at most 45 km from
the query center (80.5°N, 1°E): a 1.5° longitude gap at 80.5°N is ≈28 km. -/
lemma polar_dist_le :
    haversine_km ((161 : ℝ) / 2) 1 ((161 : ℝ) / 2) (-(1 / 2)) ≤ 45 := by
  have hpi := Real.pi_pos
  have hπsq : Real.pi ^ 2 < 9.9225 := by nlinarith [Real.pi_lt_d2, Real.pi_pos]
  have e0 : radiansR ((161 : ℝ) / 2 - 161 / 2) / 2 = 0 := by unfold radiansR; ring
  have e1 : radiansR (-(1 / 2) - 1 : ℝ) / 2 = -(Real.pi / 240) := by unfold radiansR; ring
  have e2 : radiansR ((161 : ℝ) / 2) = 161 * Real.pi / 360 := by unfold radiansR; ring
  simp only [haversine_km]
  rw [e0, e1, e2]
  rw [Real.sin_zero, Real.sin_neg, neg_sq]
  have hcpos : 0 < Real.cos (161 * Real.pi / 360) :=
    Real.cos_pos_of_mem_Ioo ⟨by nlinarith, by nlinarith⟩
  have hspos : 0 < Real.sin (Real.pi / 240) :=
    Real.sin_pos_of_pos_of_lt_pi (by positivity) (by nlinarith)
  have hzpos : 0 < Real.cos (161 * Real.pi / 360) * Real.sin (Real.pi / 240) :=
    mul_pos hcpos hspos
  have ea : (0 : ℝ) ^ 2 + Real.cos (161 * Real.pi / 360) * Real.cos (161 * Real.pi / 360) *
      Real.sin (Real.pi / 240) ^ 2 =
      (Real.cos (161 * Real.pi / 360) * Real.sin (Real.pi / 240)) ^ 2 := by ring
  rw [ea, Real.sqrt_sq hzpos.le]
  have hcb : Real.cos (161 * Real.pi / 360) < 19 * Real.pi / 360 := by
    have hc : Real.cos (161 * Real.pi / 360) = Real.sin (19 * Real.pi / 360) := by
      rw [← Real.sin_pi_div_two_sub]
      congr 1
      ring
    rw [hc]
    exact Real.sin_lt (by positivity)
  have hsb : Real.sin (Real.pi / 240) < Real.pi / 240 := Real.sin_lt (by positivity)
  have hz2 : Real.cos (161 * Real.pi / 360) * Real.sin (Real.pi / 240) <
      19 * Real.pi ^ 2 / 86400 := by
    have hm := mul_lt_mul'' hcb hsb hcpos.le hspos.le
    nlinarith [hm]
  have hz_half : Real.cos (161 * Real.pi / 360) * Real.sin (Real.pi / 240) ≤ 1 / 2 := by
    nlinarith
  have hθpos : 0 < Real.arcsin (Real.cos (161 * Real.pi / 360) * Real.sin (Real.pi / 240)) :=
    Real.arcsin_pos.mpr hzpos
  have hθπ6 : Real.arcsin (Real.cos (161 * Real.pi / 360) * Real.sin (Real.pi / 240)) ≤
      Real.pi / 6 := by
    calc Real.arcsin (Real.cos (161 * Real.pi / 360) * Real.sin (Real.pi / 240))
        ≤ Real.arcsin (1 / 2) := Real.monotone_arcsin hz_half
      _ = Real.pi / 6 := by
          rw [← Real.sin_pi_div_six]
          exact Real.arcsin_sin (by nlinarith) (by nlinarith)
  have hθ1 : Real.arcsin (Real.cos (161 * Real.pi / 360) * Real.sin (Real.pi / 240)) ≤ 1 := by
    nlinarith [Real.pi_lt_d2]
  have hsinθ : Real.sin (Real.arcsin (Real.cos (161 * Real.pi / 360) *
      Real.sin (Real.pi / 240))) = Real.cos (161 * Real.pi / 360) * Real.sin (Real.pi / 240) :=
    Real.sin_arcsin (by linarith) (by linarith)
  have hcube : Real.arcsin (Real.cos (161 * Real.pi / 360) * Real.sin (Real.pi / 240)) -
      (Real.arcsin (Real.cos (161 * Real.pi / 360) * Real.sin (Real.pi / 240))) ^ 3 / 4 <
      Real.cos (161 * Real.pi / 360) * Real.sin (Real.pi / 240) := by
    have hsub := Real.sin_gt_sub_cube hθpos hθ1
    rw [hsinθ] at hsub
    exact hsub
  have hθ3 : (Real.arcsin (Real.cos (161 * Real.pi / 360) * Real.sin (Real.pi / 240))) ^ 3 ≤
      Real.arcsin (Real.cos (161 * Real.pi / 360) * Real.sin (Real.pi / 240)) *
        (Real.pi / 6) ^ 2 := by
    nlinarith [pow_le_pow_left hθpos.le hθπ6 2, hθpos]
  nlinarith [hcube, hz2, hπsq, hθ3, hθpos,
    mul_lt_mul_of_pos_left hπsq hθpos]

/-- C3 counterexample: the center (80.5°N, 1°E) lies beyond the raster's
extent (its x-range is `[-1/2, 1/2]`) and the whole 45 km degree bounding
box `[22/37, 52/37]` lies beyond it too, yet the result is 1000, not 0: the
clamp step still reads the boundary pixel, whose corner is only ≈28 km away
(at 80.5°N a degree of longitude is far less than 111 km), inside the
45 km haversine filter. -/
theorem pop_outside_bbox_counterexample :
    ((1 : ℚ) / 2 < 1 - 45 / 111) ∧
    population_within_radius polarRaster (161 / 2) 1 45 = 1000 := by
  refine ⟨by norm_num, ?_⟩
  rw [pop_single_cell polarRaster (161 / 2) 1 45 0 0
    (by norm_num [computeWindow, Raster.index, Raster.det, polarRaster, clampIdx, collapseHi])]
  rw [if_pos, bandValue]
  · norm_num [polarRaster]
  · refine ⟨by norm_num [polarRaster], by norm_num [polarRaster], ?_⟩
    have hp : polarRaster.pixelLonLat 0 0 = (((-(1 / 2) : ℚ) : ℝ), ((161 / 2 : ℚ) : ℝ)) := by
      norm_num [Raster.pixelLonLat, polarRaster, Raster.pixelX, Raster.pixelY]
    rw [hp]
    push_cast
    exact polar_dist_le

/-! ## Claim C9 -/

/-- Kinetic energy is strictly monotone in the diameter at fixed positive
velocity and the default density. -/
lemma energy_mono_diameter {d1 d2 v : ℝ} (hd1 : 0 < d1) (h12 : d1 < d2) (hv : 0 < v) :
    kinetic_energy_joules (4 / 3 * Real.pi * (d1 / 2) ^ 3 * 3000) v <
      kinetic_energy_joules (4 / 3 * Real.pi * (d2 / 2) ^ 3 * 3000) v := by
  unfold kinetic_energy_joules
  have h3 : (d1 / 2) ^ 3 < (d2 / 2) ^ 3 :=
    pow_lt_pow_left (by linarith) (by linarith) (by norm_num)
  have hpos : 0 < Real.pi * ((d2 / 2) ^ 3 - (d1 / 2) ^ 3) * (v * 1000) ^ 2 :=
    mul_pos (mul_pos Real.pi_pos (sub_pos.mpr h3)) (by positivity)
  nlinarith [hpos]

/-- Kinetic energy is strictly monotone in the velocity at fixed positive
diameter and the default density. -/
lemma energy_mono_velocity {d v1 v2 : ℝ} (hd : 0 < d) (hv1 : 0 < v1) (h12 : v1 < v2) :
    kinetic_energy_joules (4 / 3 * Real.pi * (d / 2) ^ 3 * 3000) v1 <
      kinetic_energy_joules (4 / 3 * Real.pi * (d / 2) ^ 3 * 3000) v2 := by
  unfold kinetic_energy_joules
  have hsq : (v1 * 1000) ^ 2 < (v2 * 1000) ^ 2 :=
    pow_lt_pow_left (by linarith) (by linarith) (by norm_num)
  have hmass : 0 < Real.pi * (d / 2) ^ 3 := by positivity
  have hpos : 0 < Real.pi * (d / 2) ^ 3 * ((v2 * 1000) ^ 2 - (v1 * 1000) ^ 2) :=
    mul_pos hmass (sub_pos.mpr hsq)
  nlinarith [hpos]

/-- C9: with the default density, `crater_diameter_km` is strictly
increasing in `diameter_m` for fixed positive `velocity_km_s`, and strictly
increasing in `velocity_km_s` for fixed positive `diameter_m`. -/
theorem crater_strict_mono (d1 d2 v d v1 v2 : ℝ)
    (hd1 : 0 < d1) (hd12 : d1 < d2) (hv : 0 < v)
    (hd : 0 < d) (hv1 : 0 < v1) (hv12 : v1 < v2) :
    crater_diameter_km d1 v < crater_diameter_km d2 v ∧
    crater_diameter_km d v1 < crater_diameter_km d v2 := by
  constructor
  · unfold crater_diameter_km
    have hE1 : 0 < kinetic_energy_joules (4 / 3 * Real.pi * (d1 / 2) ^ 3 * 3000) v := by
      unfold kinetic_energy_joules
      have := Real.pi_pos
      positivity
    have hlt := energy_mono_diameter hd1 hd12 hv
    have h14 := Real.rpow_lt_rpow hE1.le hlt (by norm_num : (0 : ℝ) < 1 / 4)
    linarith
  · unfold crater_diameter_km
    have hE1 : 0 < kinetic_energy_joules (4 / 3 * Real.pi * (d / 2) ^ 3 * 3000) v1 := by
      unfold kinetic_energy_joules
      have := Real.pi_pos
      positivity
    have hlt := energy_mono_velocity hd hv1 hv12
    have h14 := Real.rpow_lt_rpow hE1.le hlt (by norm_num : (0 : ℝ) < 1 / 4)
    linarith

/-- Witness for C9 at concrete sizes and speeds. -/
theorem crater_strict_mono_witness :
    crater_diameter_km 1 20 < crater_diameter_km 2 20 ∧
    crater_diameter_km 50 10 < crater_diameter_km 50 20 :=
  crater_strict_mono 1 2 20 50 10 20 (by norm_num) (by norm_num) (by norm_num)
    (by norm_num) (by norm_num) (by norm_num)
